import Mathlib

/-!
Verification development for the AiRecruit conversational vacancy builder.

The JavaScript source (two Express server variants in one file: a
`VacancyBuilder` class and an `IntelligentRecruiterChat` class) is
shallowly embedded below.  JavaScript values are modelled by the inductive
`JsValue`; objects are association lists in insertion order, `undefined`
and `null` are distinct constructors, and JS truthiness is the function
`JsValue.truthy`.  External AI calls, regex match results and network
effects are modelled as explicit parameters of the embedded functions, so
every definition is executable and total, and all recursions are
structural so that closed instances evaluate by `rfl` or `decide`.
-/

namespace AiRecruit

/-- Model of a JavaScript runtime value as it appears in the vacancy
records of the source: `undefined`, `null`, booleans, numbers (integers,
with `NaN` as a separate constructor since no claim needs non-integer
arithmetic), strings, arrays, and objects as ordered key-value lists. -/
inductive JsValue where
  | undef
  | null
  | bool (b : Bool)
  | num (n : Int)
  | nan
  | str (s : String)
  | arr (elems : List JsValue)
  | obj (fields : List (String × JsValue))

namespace JsValue

/-- JavaScript truthiness: `undefined`, `null`, `false`, `0`, `NaN` and the
empty string are falsy; every other primitive and every array and object is
truthy. -/
def truthy : JsValue → Bool
  | .undef => false
  | .null => false
  | .bool b => b
  | .num n => decide (n ≠ 0)
  | .nan => false
  | .str s => decide (s ≠ "")
  | .arr _ => true
  | .obj _ => true

/-- Strict-equality test against the literal `undefined`. -/
def isUndef : JsValue → Bool
  | .undef => true
  | _ => false

/-- Strict-equality test against the literal `null`. -/
def isNull : JsValue → Bool
  | .null => true
  | _ => false

/-- The JS test `Array.isArray(value) && value.length === 0`. -/
def isEmptyArray : JsValue → Bool
  | .arr xs => xs.isEmpty
  | _ => false

/-- The JS test `typeof value === 'number'` (`NaN` is a number). -/
def typeofIsNumber : JsValue → Bool
  | .num _ => true
  | .nan => true
  | _ => false

/-- The JS test `isNaN(value)` restricted to number-typed values (the only
way the source applies it). -/
def isNaNJs : JsValue → Bool
  | .nan => true
  | _ => false

end JsValue

/-- First value bound to a key in an association list (JS objects cannot
hold a key twice, so on faithful object encodings this is the unique
binding). -/
def assocGet : List (String × JsValue) → String → Option JsValue
  | [], _ => none
  | (k, v) :: rest, key => if k = key then some v else assocGet rest key

/-- JS property assignment on an object: replace the binding in place when
the key is present, otherwise append it (insertion order). -/
def assocSet : List (String × JsValue) → String → JsValue → List (String × JsValue)
  | [], key, val => [(key, val)]
  | (k, v) :: rest, key, val =>
    if k = key then (key, val) :: rest else (k, v) :: assocSet rest key val

/-- Digit-string parser used to model JS numeric property access on arrays
and strings (e.g. `xs['0']`). -/
def parseIndexAux : List Char → Nat → Option Nat
  | [], acc => some acc
  | c :: rest, acc =>
    if '0' ≤ c ∧ c ≤ '9' then parseIndexAux rest (acc * 10 + (c.toNat - '0'.toNat))
    else none

/-- Parse a non-empty all-digit string as a natural number, else `none`. -/
def parseIndex : List Char → Option Nat
  | [] => none
  | cs => parseIndexAux cs 0

/-- JS property read `base[part]` for a base value that is neither `null`
nor `undefined` (those two throw; see `jsMemberE`): objects look the key
up, arrays and strings expose `length` and numeric indices, and other
primitives are boxed with no own properties, yielding `undefined`. -/
def jsMember : JsValue → String → JsValue
  | .obj fields, part =>
    match assocGet fields part with
    | some v => v
    | none => .undef
  | .arr xs, part =>
    if part = "length" then .num xs.length
    else
      match parseIndex part.toList with
      | some i => (xs.drop i).headD .undef
      | none => .undef
  | .str s, part =>
    if part = "length" then .num s.length
    else
      match parseIndex part.toList with
      | some i =>
        match s.toList.drop i with
        | c :: _ => .str (String.mk [c])
        | [] => .undef
      | none => .undef
  | _, _ => (.undef : JsValue)

/-- JS property read that makes the throwing cases explicit: reading any
property of `null` or `undefined` raises a `TypeError`. -/
def jsMemberE (base : JsValue) (part : String) : Except String JsValue :=
  match base with
  | .null => .error "TypeError"
  | .undef => .error "TypeError"
  | v => .ok (jsMember v part)

/-- Split a character list at every dot, the core of
`String(path).split('.')`. -/
def splitCharsOnDot : List Char → List (List Char)
  | [] => [[]]
  | c :: rest =>
    let r := splitCharsOnDot rest
    if c = '.' then [] :: r
    else
      match r with
      | h :: t => (c :: h) :: t
      | [] => [[c]]

/-- The JS `path.split('.')` on a string (total, `"".split('.')` is
`[""]`). -/
def splitOnDot (s : String) : List String :=
  (splitCharsOnDot s.toList).map (fun cs => String.mk cs)

/-- JS `String(v)` coercion.  Array elements are stringified one nesting
level deep (elements that are themselves arrays or objects appear
simplified); no code path of the source coerces an array-valued path, all
call sites pass plain strings, so only the string case is ever exercised
by the claims. -/
def jsToString : JsValue → String
  | .undef => "undefined"
  | .null => "null"
  | .bool b => if b then "true" else "false"
  | .num n => toString n
  | .nan => "NaN"
  | .str s => s
  | .obj _ => "[object Object]"
  | .arr xs =>
    String.intercalate ","
      (xs.map (fun v =>
        match v with
        | .null => ""
        | .undef => ""
        | .bool b => if b then "true" else "false"
        | .num n => toString n
        | .nan => "NaN"
        | .str s => s
        | .obj _ => "[object Object]"
        | .arr _ => ""))

/-- One step of the `reduce` inside `getValueByPath`:
`(acc && acc[part] !== undefined) ? acc[part] : undefined`.  The guard
`acc &&` short-circuits, so the property read only happens on truthy
accumulators and can never throw. -/
def pathStep (acc : JsValue) (part : String) : JsValue :=
  if acc.truthy ∧ ¬ (jsMember acc part).isUndef then jsMember acc part
  else (.undef : JsValue)

/-- Embedding of the source helper
`getValueByPath(obj, path)`: falsy path or falsy object yield `undefined`,
otherwise the dot-split path is walked by the guarded `reduce`. -/
def getValueByPath (obj path : JsValue) : JsValue :=
  if ¬ path.truthy ∨ ¬ obj.truthy then .undef
  else (splitOnDot (jsToString path)).foldl pathStep obj

/-- Variant of `getValueByPath` in which every property read is performed
through `jsMemberE`, so a JS `TypeError` would surface as `.error`; used to
state that the real function never throws. -/
def getValueByPathE (obj path : JsValue) : Except String JsValue :=
  if ¬ path.truthy ∨ ¬ obj.truthy then .ok .undef
  else
    (splitOnDot (jsToString path)).foldlM
      (fun acc part =>
        if acc.truthy then
          (jsMemberE acc part).map (fun v => if ¬ v.isUndef then v else .undef)
        else pure .undef)
      obj

/-- Read a field of a vacancy record through a dot path given as a plain
string, the way every call site of `getValueByPath` in the source does. -/
def getPath (v : JsValue) (name : String) : JsValue :=
  getValueByPath v (.str name)

/-- JS object key read `o[k]` (same as a one-segment property read). -/
def objGet (v : JsValue) (key : String) : JsValue :=
  jsMember v key

/-- JS object key assignment `o[k] = val`; on non-objects sloppy-mode JS
silently drops the write (primitives) — `null`/`undefined` receivers never
occur at the guarded call sites of the source. -/
def objSet (v : JsValue) (key : String) (val : JsValue) : JsValue :=
  match v with
  | .obj fields => .obj (assocSet fields key val)
  | other => other

/-- JS `Object.keys` (insertion order; empty for primitives). -/
def objKeys : JsValue → List String
  | .obj fields => fields.map Prod.fst
  | _ => []

/-- ASCII lower-casing of one character, the effect of `toLowerCase()` on
the texts the source matches against. -/
def charLowerJs (c : Char) : Char :=
  if 'A' ≤ c ∧ c ≤ 'Z' then Char.ofNat (c.toNat + 32) else c

/-- The JS `s.toLowerCase()` (ASCII range; the keyword tables of the source
are all ASCII). -/
def toLowerJs (s : String) : String :=
  String.mk (s.toList.map charLowerJs)

/-- Whitespace class used by `trim()` (ASCII subset, enough for every
string the source trims). -/
def isWsChar (c : Char) : Bool :=
  c = ' ' ∨ c = '\t' ∨ c = '\n' ∨ c = '\r'

/-- The JS `s.trim()`. -/
def trimJs (s : String) : String :=
  String.mk (((s.toList.dropWhile isWsChar).reverse.dropWhile isWsChar).reverse)

/-- Decidable list-"starts-with" test over characters. -/
def isPrefixOfJs : List Char → List Char → Bool
  | [], _ => true
  | _ :: _, [] => false
  | a :: as, b :: bs => a = b && isPrefixOfJs as bs

/-- Decidable contiguous-sublist test over characters. -/
def isInfixOfJs (needle : List Char) : List Char → Bool
  | [] => isPrefixOfJs needle []
  | c :: rest => isPrefixOfJs needle (c :: rest) || isInfixOfJs needle rest

/-- The JS `s.includes(sub)` substring test. -/
def strIncludes (s sub : String) : Bool :=
  isInfixOfJs sub.toList s.toList

/-- The JS `array.indexOf(x)` (`-1` when absent), specialised to string
arrays. -/
def jsIndexOfAux (s : String) : List String → Int → Int
  | [], _ => -1
  | x :: xs, i => if x = s then i else jsIndexOfAux s xs (i + 1)

/-- Index of a string in a list, `-1` when absent, as in JS. -/
def jsIndexOf (l : List String) (s : String) : Int :=
  jsIndexOfAux s l 0

/-! ## VacancyBuilder variant (first half of the source file) -/

namespace VacancyBuilder

/-- Names of `this.fields` of the `VacancyBuilder` class, in declaration
order (the other components of each field descriptor — display name, type,
enum options, description — only feed prompt text and never influence the
control flow embedded here). -/
def fieldNames : List String :=
  ["title", "department", "location.type", "location.city", "domain",
   "salary.from", "salary.to", "experience.min", "experience.max",
   "responsibilities", "skills", "secondary_skills", "soft_skills",
   "benefits", "is_remote"]

/-- The `getVacancyTemplate()` of the `VacancyBuilder` variant. -/
def vacancyTemplate : JsValue :=
  .obj
    [("title", .null),
     ("department", .null),
     ("location", .obj [("type", .null), ("city", .null)]),
     ("domain", .null),
     ("salary", .obj [("from", .null), ("to", .null)]),
     ("experience", .obj [("min", .null), ("max", .null)]),
     ("responsibilities", .arr []),
     ("skills", .arr []),
     ("secondary_skills", .arr []),
     ("soft_skills", .arr []),
     ("benefits", .arr []),
     ("is_remote", .null)]

/-- The unfilled test inside `findNextFieldToFill`:
`value === null || (Array.isArray(value) && value.length === 0) || value === ''`. -/
def isUnfilledVB (value : JsValue) : Bool :=
  value.isNull || value.isEmptyArray ||
    (match value with | .str s => decide (s = "") | _ => false)

/-- Embedding of `VacancyBuilder.findNextFieldToFill(vacancy, lastFieldName)`:
rotate the field list to start right after `lastFieldName` (via `indexOf`,
`-1` when unset or unknown) and return the first field whose value is
`null`, an empty array, or the empty string. -/
def findNextFieldToFill (vacancy : JsValue) (lastFieldName : Option String) :
    Option String :=
  let lastIndex : Int :=
    match lastFieldName with
    | some n => if (JsValue.str n).truthy then jsIndexOf fieldNames n else -1
    | none => -1
  let cut := (lastIndex + 1).toNat
  let searchOrder := fieldNames.drop cut ++ fieldNames.take cut
  searchOrder.find? (fun name => isUnfilledVB (getPath vacancy name))

/-- The structured result of `extractAndUpdateFields` after parsing:
status string, full updated vacancy, commentary. -/
structure Extraction where
  status : String
  updatedVacancy : JsValue
  commentary : String

/-- The fallback object `extractAndUpdateFields` returns when the AI call
throws, its output fails `JSON.parse`, or the parsed object misses
`status`/`updatedVacancy`: status CLARIFICATION_NEEDED, the original
vacancy echoed back, and a generic rephrase request (source wording
abridged to drop a contraction). -/
def clarificationFallback (vacancy : JsValue) : Extraction :=
  ⟨"CLARIFICATION_NEEDED", vacancy,
   "Could you please rephrase that?"⟩

/-- Embedding of the result-handling of
`VacancyBuilder.extractAndUpdateFields`: the opaque AI call and
`JSON.parse` are modelled by the `parsed` argument (`none` covers a thrown
call and unparsable output); a parsed object with a falsy `status` or a
falsy `updatedVacancy` fails the basic validation and also lands in the
fallback. -/
def extractAndUpdateFields (parsed : Option Extraction) (vacancy : JsValue) :
    Extraction :=
  match parsed with
  | none => clarificationFallback vacancy
  | some r =>
    if ¬ (JsValue.str r.status).truthy ∨ ¬ r.updatedVacancy.truthy then
      clarificationFallback vacancy
    else r

/-- Outcome of the message-processing prefix of the
`/api/recruiter/chat` handler of the `VacancyBuilder` variant: the new
session vacancy, and `some commentary` when the turn ended early (status
CLARIFICATION_NEEDED) without reaching `generateNextResponse`, the
component that invokes `findNextFieldToFill`. -/
structure TurnOutcome where
  vacancy : JsValue
  earlyReply : Option String

/-- Embedding of lines
`session.vacancy = extractionResult.updatedVacancy; if (...CLARIFICATION_NEEDED) ... return;`
of the `VacancyBuilder` chat route: the session record is replaced by the
extraction result unconditionally, and on CLARIFICATION_NEEDED the
commentary is returned and the next-field selector is never invoked. -/
def chatMessageStep (extraction : Extraction) : TurnOutcome :=
  let newVacancy := extraction.updatedVacancy
  if extraction.status = "CLARIFICATION_NEEDED" then
    ⟨newVacancy, some extraction.commentary⟩
  else ⟨newVacancy, none⟩

end VacancyBuilder

/-! ## IntelligentRecruiterChat variant (second half of the source file) -/

namespace Recruiter

/-- The `getVacancyTemplate()` of the `IntelligentRecruiterChat` variant. -/
def vacancyTemplate : JsValue :=
  .obj
    [("title", .null),
     ("description", .null),
     ("authorId", .str "user_2hm9OQpFfHybPE5X2YAKC10dfJW"),
     ("orgId", .str "org_2hm9FHY47aoA4uB6HZVf64dohbO"),
     ("hiringCompanyId", .str "bac58803-ce02-4fcd-abea-7d89652037aa"),
     ("department", .null),
     ("additionalInformation", .null),
     ("locationType", .null),
     ("remote", .null),
     ("aiModel", .null),
     ("companyType", .null),
     ("employmentType", .null),
     ("domain", .null),
     ("isTestsTask", .null),
     ("coreSkills", .arr []),
     ("secondarySkills", .arr []),
     ("overallExperiencesFrom", .null),
     ("overallExperiencesTo", .null),
     ("education", .null),
     ("languages", .arr []),
     ("salaryExpectations",
      .obj [("min", .null), ("max", .null), ("currency", .str "USD")])]

/-- The `requiredFields` of `isVacancyComplete`. -/
def requiredFields : List String :=
  ["title", "department", "domain", "coreSkills", "overallExperiencesFrom"]

/-- Embedding of `IntelligentRecruiterChat.isVacancyComplete(vacancy)`:
return `false` as soon as a required field is JS-falsy or an empty array,
`true` otherwise. -/
def isVacancyComplete (vacancy : JsValue) : Bool :=
  requiredFields.all (fun field =>
    let value := getPath vacancy field
    ¬ (¬ value.truthy ∨ value.isEmptyArray))

/-- The ordered `allFields` list of `getNextMissingField`. -/
def allFields : List String :=
  ["title", "department", "domain", "coreSkills", "overallExperiencesFrom",
   "salaryExpectations.min", "locationType", "employmentType", "companyType",
   "secondarySkills", "overallExperiencesTo", "languages", "education",
   "isTestsTask", "description"]

/-- The generic emptiness test inside `getNextMissingField`:
`value === null || value === undefined || (Array.isArray(value) && value.length === 0) || (typeof value === 'number' && isNaN(value))`. -/
def isEmptyIC (value : JsValue) : Bool :=
  value.isNull || value.isUndef || value.isEmptyArray ||
    (value.typeofIsNumber && value.isNaNJs)

/-- The per-field missing test of `getNextMissingField`: boolean fields
count `false` as filled, the optional string fields count the empty string
as filled, and every other field is missing when empty or a
whitespace-only string. -/
def isMissingIC (field : String) (value : JsValue) : Bool :=
  if field = "isTestsTask" ∨ field = "education" ∨ field = "remote" then
    value.isNull || value.isUndef
  else if field = "description" ∨ field = "additionalInformation" then
    value.isNull || value.isUndef
  else
    isEmptyIC value ||
      (match value with | .str s => decide (trimJs s = "") | _ => false)

/-- Embedding of `IntelligentRecruiterChat.getNextMissingField(vacancy)`:
first field of `allFields` whose value is missing, `none` when all are
filled. -/
def getNextMissingField (vacancy : JsValue) : Option String :=
  allFields.find? (fun field => isMissingIC field (getPath vacancy field))

/-- The optional-chaining test `nextField?.includes('salaryExpectations')`
(falsy when `nextField` is `null`). -/
def mentionsSalary : Option String → Bool
  | some s => strIncludes s "salaryExpectations"
  | none => false

/-- The default-value cascade of `checkForSkipResponse` (started from the
empty string and reassigned by the `if` chain). -/
def skipDefaultValue (nextField : Option String) : JsValue :=
  if nextField = some "isTestsTask" ∨ nextField = some "education" ∨
      nextField = some "remote" then
    .bool false
  else if nextField = some "secondarySkills" ∨ nextField = some "languages" then
    .arr []
  else if mentionsSalary nextField ∨ nextField = some "overallExperiencesTo" then
    .null
  else .str ""

/-- The skip decision object `{ shouldSkip, value, field }` returned by
`checkForSkipResponse` (absent properties modelled as `undefined`/`none`). -/
structure SkipDecision where
  shouldSkip : Bool
  value : JsValue
  field : Option String

/-- Embedding of `IntelligentRecruiterChat.checkForSkipResponse`: the
classification capability's raw reply is `aiReply` (`none` models a thrown
call, which the `catch` turns into `shouldSkip=false`); a reply whose
lower-cased trimmed text contains "skip" triggers the skip with the
type-directed default for the pending field. -/
def checkForSkipResponse (aiReply : Option String) (currentVacancy : JsValue) :
    SkipDecision :=
  match aiReply with
  | none => ⟨false, .undef, none⟩
  | some response =>
    let nextField := getNextMissingField currentVacancy
    let shouldSkip := strIncludes (trimJs (toLowerJs response)) "skip"
    if shouldSkip then ⟨true, skipDefaultValue nextField, nextField⟩
    else ⟨false, .undef, none⟩

/-- The keys of the `skillPatterns` table of `applySmartMappings`, in
declaration order. -/
def skillKeys : List String :=
  ["react", "next", "vue", "angular", "node", "typescript", "javascript",
   "python", "docker", "kubernetes", "aws", "azure", "gcp"]

/-- The title test of the department heuristic:
`updatedVacancy.title.toLowerCase()` contains one of the developer
keywords.  A truthy non-string title would throw on `toLowerCase()` in JS;
the heuristic is only ever reached with string titles, and the embedding
returns `false` there. -/
def titleLooksDev (title : JsValue) : Bool :=
  match title with
  | .str s =>
    strIncludes (toLowerJs s) "developer" || strIncludes (toLowerJs s) "engineer" ||
      strIncludes (toLowerJs s) "frontend" || strIncludes (toLowerJs s) "backend"
  | _ => false

/-- The JS test `x.length === 0` as applied to
`currentVacancy.coreSkills` (reached only on truthy values; non-arrays
without a numeric `length` compare unequal to `0`). -/
def jsLengthZero : JsValue → Bool
  | .arr xs => xs.isEmpty
  | .str s => decide (s = "")
  | _ => false

/-- First heuristic block of `applySmartMappings`: a developer-sounding
title auto-fills the department with "IT" when the current record's
department is falsy — the guard never looks at a department the AI may
have extracted in the same turn into `updatedVacancy`. -/
def smDepartment (updatedVacancy currentVacancy : JsValue) : JsValue :=
  if (objGet updatedVacancy "title").truthy ∧
      titleLooksDev (objGet updatedVacancy "title") ∧
      ¬ (objGet currentVacancy "department").truthy then
    objSet updatedVacancy "department" (.str "IT")
  else updatedVacancy

/-- Second block: the `(\d+)[-\s]*(\d+)?\s*dollars?` match (supplied as
the `salaryMatch` oracle) replaces the whole `salaryExpectations` object
when the current record's minimum is falsy. -/
def smSalary (updatedVacancy currentVacancy : JsValue)
    (salaryMatch : Option (Int × Option Int)) : JsValue :=
  match salaryMatch with
  | some (m1, m2) =>
    if ¬ (objGet (objGet currentVacancy "salaryExpectations") "min").truthy then
      objSet updatedVacancy "salaryExpectations"
        (.obj [("min", .num m1),
               ("max", match m2 with | some m => .num m | none => .null),
               ("currency", .str "USD")])
    else updatedVacancy
  | none => updatedVacancy

/-- Third block, with the unparenthesised
`includes('office') || includes('on-site') && !currentVacancy.locationType`
condition translated exactly as JS parses it (`&&` binds tighter than
`||`), so the office keyword fires regardless of the fill state. -/
def smLocation (updatedVacancy : JsValue) (msg : String)
    (currentVacancy : JsValue) : JsValue :=
  if strIncludes msg "remote" ∧
      ¬ (objGet currentVacancy "locationType").truthy then
    objSet (objSet updatedVacancy "locationType" (.str "remote")) "remote"
      (.bool true)
  else if strIncludes msg "hybrid" ∧
      ¬ (objGet currentVacancy "locationType").truthy then
    objSet updatedVacancy "locationType" (.str "hybrid")
  else if strIncludes msg "office" ∨
      (strIncludes msg "on-site" ∧
        ¬ (objGet currentVacancy "locationType").truthy) then
    objSet updatedVacancy "locationType" (.str "on_site")
  else updatedVacancy

/-- Fourth block: employment-type keywords, guarded on the current
record. -/
def smEmployment (updatedVacancy : JsValue) (msg : String)
    (currentVacancy : JsValue) : JsValue :=
  if strIncludes msg "full" ∧ strIncludes msg "time" ∧
      ¬ (objGet currentVacancy "employmentType").truthy then
    objSet updatedVacancy "employmentType" (.str "full-time")
  else if strIncludes msg "part" ∧ strIncludes msg "time" ∧
      ¬ (objGet currentVacancy "employmentType").truthy then
    objSet updatedVacancy "employmentType" (.str "part-time")
  else updatedVacancy

/-- Fifth block: the `(\d+)\s*(?:years?|yrs?)` match (the `expMatch`
oracle) fills the minimum experience when the current value is falsy. -/
def smExperience (updatedVacancy currentVacancy : JsValue)
    (expMatch : Option Int) : JsValue :=
  match expMatch with
  | some e =>
    if ¬ (objGet currentVacancy "overallExperiencesFrom").truthy then
      objSet updatedVacancy "overallExperiencesFrom" (.num e)
    else updatedVacancy
  | none => updatedVacancy

/-- Sixth block: keyword-matched skills (the `skillTest` oracle over
`skillKeys`) fill `coreSkills` when the current list is falsy or empty. -/
def smSkills (updatedVacancy currentVacancy : JsValue)
    (skillTest : String → Bool) : JsValue :=
  if ¬ (objGet currentVacancy "coreSkills").truthy ∨
      jsLengthZero (objGet currentVacancy "coreSkills") then
    if (skillKeys.filter skillTest).length > 0 then
      objSet updatedVacancy "coreSkills"
        (.arr ((skillKeys.filter skillTest).map JsValue.str))
    else updatedVacancy
  else updatedVacancy

/-- Embedding of `IntelligentRecruiterChat.applySmartMappings(updatedVacancy,
userMessage, currentVacancy)`: the six sequential mutation blocks of the
source, applied in order on the lower-cased message.  The two regex
matches are modelled as oracles supplied by the caller (`salaryMatch`,
`expMatch`, and `skillTest` for the `skillPatterns` table); every
substring test and fill-state guard is translated directly. -/
def applySmartMappings (updatedVacancy : JsValue) (userMessage : String)
    (currentVacancy : JsValue) (salaryMatch : Option (Int × Option Int))
    (expMatch : Option Int) (skillTest : String → Bool) : JsValue :=
  smSkills
    (smExperience
      (smEmployment
        (smLocation
          (smSalary (smDepartment updatedVacancy currentVacancy)
            currentVacancy salaryMatch)
          (toLowerJs userMessage) currentVacancy)
        (toLowerJs userMessage) currentVacancy)
      currentVacancy expMatch)
    currentVacancy skillTest

/-- Embedding of the merge loop of `analyzeMessage`:
`const mergedVacancy = { ...currentVacancy }` followed by
`Object.keys(updatedVacancy).forEach(key => if (updatedVacancy[key] !== null && updatedVacancy[key] !== undefined) mergedVacancy[key] = updatedVacancy[key])`.
Spreading a primitive yields an empty object, as in JS. -/
def mergeVacancy (currentVacancy updatedVacancy : JsValue) : JsValue :=
  (objKeys updatedVacancy).foldl
    (fun merged key =>
      if ¬ (objGet updatedVacancy key).isNull ∧
          ¬ (objGet updatedVacancy key).isUndef then
        objSet merged key (objGet updatedVacancy key)
      else merged)
    (match currentVacancy with
     | .obj fields => JsValue.obj fields
     | _ => JsValue.obj [])

/-- Outcome of the opaque extraction call plus `JSON.parse` inside
`analyzeMessage`: the call threw, its output was unparsable, or it parsed
to an updated vacancy object. -/
inductive ExtractOutcome where
  | threw
  | unparsable
  | parsed (updatedVacancy : JsValue)

/-- The `{ success, updatedVacancy, error? }` object `analyzeMessage`
resolves to. -/
structure AnalysisResult where
  success : Bool
  updatedVacancy : JsValue
  errorMsg : Option String

/-- The skip branch of `analyzeMessage`: starting from a copy of the
current vacancy, set the pending field (recomputed by
`getNextMissingField`; `none` leaves the copy untouched) to the skip
default, supporting one-level dot paths with the
`if (!updatedVacancy[parent]) updatedVacancy[parent] = {}` default. -/
def applySkip (currentVacancy value : JsValue) : JsValue :=
  match getNextMissingField currentVacancy with
  | some nextField =>
    if strIncludes nextField "." then
      match splitOnDot nextField with
      | parent :: child :: _ =>
        let withParent :=
          if ¬ (objGet currentVacancy parent).truthy then
            objSet currentVacancy parent (.obj [])
          else currentVacancy
        objSet withParent parent
          (objSet (objGet withParent parent) child value)
      | _ => currentVacancy
    else objSet currentVacancy nextField value
  | none => currentVacancy

/-- Embedding of `IntelligentRecruiterChat.analyzeMessage`.  The skip
classification reply (`skipAi`), the extraction outcome, and the regex
oracles are explicit inputs.  On a positive skip decision the extraction
call is never made: `applySkip` writes the skip default and the function
returns.  Otherwise the parsed updated vacancy passes through
`applySmartMappings` and the non-null merge; a thrown call or unparsable
output echoes the current vacancy with `success: false`. -/
def analyzeMessage (skipAi : Option String) (extraction : ExtractOutcome)
    (salaryMatch : Option (Int × Option Int)) (expMatch : Option Int)
    (skillTest : String → Bool) (userMessage : String)
    (currentVacancy : JsValue) : AnalysisResult :=
  let skipResponse := checkForSkipResponse skipAi currentVacancy
  if skipResponse.shouldSkip then
    ⟨true, applySkip currentVacancy skipResponse.value, none⟩
  else
    match extraction with
    | .threw => ⟨false, currentVacancy, some "AI analysis error"⟩
    | .unparsable => ⟨false, currentVacancy, some "Data processing error"⟩
    | .parsed raw =>
      let mapped :=
        applySmartMappings raw userMessage currentVacancy salaryMatch expMatch
          skillTest
      ⟨true, mergeVacancy currentVacancy mapped, none⟩

/-- The response object assembled by the completion branch of the
`/api/recruiter/chat` route of the `IntelligentRecruiterChat` variant. -/
structure CompletionResponse where
  message : String
  isComplete : Bool
  vacancy : JsValue
  jobDescription : String
  webhookSuccess : Bool
  completionPercentage : Nat

/-- Embedding of the completion branch of the chat route (the block
entered when `aiResponse.isComplete`): the webhook call sits in its own
`try`/`catch`, so a thrown `sendToWebhook` (`webhookOutcome = .error`)
only leaves `webhookSuccess` at `false` and picks the failure status line;
the response always carries the generated document and
`isComplete: true`. -/
def completeTurnStep (aiMessage : String) (vacancy : JsValue)
    (jobDescription : String) (webhookOutcome : Except String JsValue) :
    CompletionResponse :=
  let webhookSuccess := match webhookOutcome with | .ok _ => true | .error _ => false
  let webhookStatus :=
    if webhookSuccess then
      "\n\n✅ **Position successfully created in the system!**"
    else
      "\n\n⚠️ **Position created locally but failed to sync with main system.**"
  let finalMessage :=
    aiMessage ++ "\n\n**Generated Job Description:**\n\n" ++ jobDescription ++
      webhookStatus
  ⟨finalMessage, true, vacancy, jobDescription, webhookSuccess, 100⟩

end Recruiter

/-! ## Spec-side predicates

These definitions follow the wording of the specification (not the code)
and exist only to state claims and compare them with the embedded source
functions. -/

/-- Modelled from the spec's data model: `null` / `undefined`, an empty
array and an empty string are the "unfilled" sentinels; every other value
— including an explicit `false` or `0` — is filled. -/
def specFilled (v : JsValue) : Bool :=
  !(v.isNull || v.isUndef || v.isEmptyArray ||
      (match v with | .str s => decide (s = "") | _ => false))

/-- Modelled from claim C3's wording for non-boolean fields: unfilled means
`null`, an array with zero elements, or an empty/whitespace-only string. -/
def claimUnfilledC3 (v : JsValue) : Bool :=
  v.isNull || v.isEmptyArray ||
    (match v with | .str s => decide (trimJs s = "") | _ => false)

/-! ## Helper lemmas about the object model -/

theorem assocGet_assocSet_self (l : List (String × JsValue)) (k : String)
    (v : JsValue) : assocGet (assocSet l k v) k = some v := by
  induction l with
  | nil => simp [assocSet, assocGet]
  | cons hd tl ih =>
    obtain ⟨a, b⟩ := hd
    by_cases h : a = k
    · simp [assocSet, h, assocGet]
    · simp [assocSet, h, assocGet, ih]

theorem assocGet_assocSet_ne (l : List (String × JsValue)) (k k' : String)
    (v : JsValue) (h : k' ≠ k) :
    assocGet (assocSet l k v) k' = assocGet l k' := by
  induction l with
  | nil => simp [assocSet, assocGet, Ne.symm h]
  | cons hd tl ih =>
    obtain ⟨a, b⟩ := hd
    by_cases h1 : a = k
    · subst h1
      simp [assocSet, assocGet, Ne.symm h]
    · by_cases h2 : a = k'
      · simp [assocSet, h1, assocGet, h2, h]
      · simp [assocSet, h1, assocGet, h2, ih]

theorem objGet_obj (fields : List (String × JsValue)) (k : String) :
    objGet (.obj fields) k =
      (match assocGet fields k with | some v => v | none => .undef) := rfl

theorem objSet_obj (fields : List (String × JsValue)) (k : String)
    (v : JsValue) : objSet (.obj fields) k v = .obj (assocSet fields k v) := rfl

theorem objGet_objSet_self (fields : List (String × JsValue)) (k : String)
    (v : JsValue) : objGet (objSet (.obj fields) k v) k = v := by
  simp [objSet_obj, objGet_obj, assocGet_assocSet_self]

/-- A write to one key of any value leaves reads of every other key
unchanged (on non-objects the write is dropped entirely). -/
theorem objGet_objSet_ne (x : JsValue) (k k' : String) (v : JsValue)
    (h : k' ≠ k) : objGet (objSet x k v) k' = objGet x k' := by
  cases x <;> simp [objSet, objGet, jsMember, assocGet_assocSet_ne _ _ _ _ h]

theorem assocGet_eq_none_of_not_mem (fields : List (String × JsValue))
    (k : String) (h : k ∉ fields.map Prod.fst) :
    assocGet fields k = none := by
  induction fields with
  | nil => rfl
  | cons hd tl ih =>
    obtain ⟨a, b⟩ := hd
    simp only [List.map_cons, List.mem_cons, not_or] at h
    simp [assocGet, Ne.symm h.1, ih h.2]

theorem objGet_eq_undef_of_not_mem (fields : List (String × JsValue))
    (k : String) (h : k ∉ fields.map Prod.fst) :
    objGet (.obj fields) k = .undef := by
  simp [objGet_obj, assocGet_eq_none_of_not_mem fields k h]

theorem pathStep_undef (part : String) : pathStep .undef part = .undef := rfl

theorem foldl_pathStep_undef (l : List String) :
    l.foldl pathStep .undef = .undef := by
  induction l with
  | nil => rfl
  | cons hd tl ih => simpa [pathStep_undef] using ih

/-- On an object accumulator, one path step is exactly the key read
(a missing key reads as `undefined` either way). -/
theorem pathStep_obj (fields : List (String × JsValue)) (part : String) :
    pathStep (.obj fields) part = objGet (.obj fields) part := by
  simp only [pathStep, JsValue.truthy, objGet]
  by_cases h : (jsMember (.obj fields) part).isUndef
  · cases hm : jsMember (.obj fields) part <;> simp_all [JsValue.isUndef]
  · simp [h]

theorem getPath_obj_foldl (fields : List (String × JsValue)) (name : String)
    (h : name ≠ "") :
    getPath (.obj fields) name =
      (splitOnDot name).foldl pathStep (.obj fields) := by
  simp [getPath, getValueByPath, JsValue.truthy, h, jsToString]

/-- Reading a dot-free field of an object through `getValueByPath` is the
plain key read. -/
theorem getPath_obj_single (fields : List (String × JsValue)) (name : String)
    (h1 : splitOnDot name = [name]) (h2 : name ≠ "") :
    getPath (.obj fields) name = objGet (.obj fields) name := by
  rw [getPath_obj_foldl fields name h2, h1]
  simp [pathStep_obj]

/-- Reading a two-segment dot path of an object through `getValueByPath`
is two successive guarded steps. -/
theorem getPath_obj_double (fields : List (String × JsValue))
    (name p c : String) (h1 : splitOnDot name = [p, c]) (h2 : name ≠ "") :
    getPath (.obj fields) name = pathStep (pathStep (.obj fields) p) c := by
  rw [getPath_obj_foldl fields name h2, h1]
  rfl

/-- Key-wise behaviour of the `Object.keys(...).forEach` loop of the merge:
with pairwise distinct keys, a key is taken from the update when it is
listed there with a non-null/non-undefined value, and from the start
object otherwise. -/
theorem merge_foldl_spec (upd : JsValue) :
    ∀ (keys : List String) (acc : List (String × JsValue)) (k : String),
      keys.Nodup →
      objGet
        (List.foldl
          (fun merged key =>
            if ¬ (objGet upd key).isNull ∧ ¬ (objGet upd key).isUndef then
              objSet merged key (objGet upd key)
            else merged)
          (JsValue.obj acc) keys) k =
      if k ∈ keys ∧ ¬ (objGet upd k).isNull ∧ ¬ (objGet upd k).isUndef then
        objGet upd k
      else objGet (JsValue.obj acc) k := by
  intro keys
  induction keys with
  | nil => intro acc k _; simp
  | cons hd tl ih =>
    intro acc k hnd
    have hhd : hd ∉ tl := (List.nodup_cons.mp hnd).1
    have htl : tl.Nodup := (List.nodup_cons.mp hnd).2
    by_cases hcond : ¬ (objGet upd hd).isNull ∧ ¬ (objGet upd hd).isUndef
    · simp only [List.foldl_cons, if_pos hcond, objSet_obj]
      rw [ih (assocSet acc hd (objGet upd hd)) k htl]
      by_cases hk : k = hd
      · subst hk
        rw [if_neg (fun hc => hhd hc.1), if_pos ⟨List.mem_cons_self k tl, hcond⟩]
        simp [objGet_obj, assocGet_assocSet_self]
      · have helse :
            objGet (JsValue.obj (assocSet acc hd (objGet upd hd))) k =
              objGet (JsValue.obj acc) k := by
          simp [objGet_obj, assocGet_assocSet_ne _ _ _ _ hk]
        by_cases hc : k ∈ tl ∧ ¬ (objGet upd k).isNull ∧ ¬ (objGet upd k).isUndef
        · rw [if_pos hc, if_pos ⟨List.mem_cons_of_mem hd hc.1, hc.2⟩]
        · rw [if_neg hc, helse,
            if_neg (fun hcc => hc ⟨(List.mem_cons.mp hcc.1).resolve_left hk, hcc.2⟩)]
    · simp only [List.foldl_cons, if_neg hcond]
      rw [ih acc k htl]
      by_cases hk : k = hd
      · subst hk
        rw [if_neg (fun hc => hcond hc.2), if_neg (fun hc => hcond hc.2)]
      · by_cases hc : k ∈ tl ∧ ¬ (objGet upd k).isNull ∧ ¬ (objGet upd k).isUndef
        · rw [if_pos hc, if_pos ⟨List.mem_cons_of_mem hd hc.1, hc.2⟩]
        · rw [if_neg hc,
            if_neg (fun hcc => hc ⟨(List.mem_cons.mp hcc.1).resolve_left hk, hcc.2⟩)]

/-! ## Claim C1: monotonicity of the merge -/

/-- Current record for the C1 counterexample: a filled skills list. -/
def c1cur : List (String × JsValue) := [("coreSkills", .arr [.str "React"])]

/-- Extraction result for the C1 counterexample: the AI echoed an empty
skills array (non-null, non-undefined). -/
def c1upd : List (String × JsValue) := [("coreSkills", .arr [])]

/-- Claim C1 as stated is false: a filled field can be turned back to
unfilled by a merge with no skip decision, because the merge guard only
rejects `null`/`undefined`, so an extracted empty array (an unfilled
sentinel) overwrites previously collected data. -/
theorem claim_c1_counterexample :
    specFilled (objGet (.obj c1cur) "coreSkills") = true ∧
    specFilled
      (objGet (Recruiter.mergeVacancy (.obj c1cur) (.obj c1upd)) "coreSkills") =
      false :=
  ⟨rfl, rfl⟩

/-- Claim C1 (amended): for every top-level key, `merge(R, E, none)` keeps
the current value exactly when the extracted value is `null` or
`undefined` (so null/undefined never erase data), and otherwise takes the
extracted value verbatim — even when that value is an unfilled sentinel
such as an empty array or empty string, and even when it is a nested
object that no longer carries previously filled sub-fields. -/
theorem claim_c1 :
    ∀ (cf uf : List (String × JsValue)), (uf.map Prod.fst).Nodup →
    ∀ k : String,
      objGet (Recruiter.mergeVacancy (.obj cf) (.obj uf)) k =
        if (objGet (.obj uf) k).isNull ∨ (objGet (.obj uf) k).isUndef then
          objGet (.obj cf) k
        else objGet (.obj uf) k := by
  intro cf uf h k
  show objGet
      (List.foldl _ (JsValue.obj cf) (objKeys (.obj uf))) k = _
  rw [show objKeys (.obj uf) = uf.map Prod.fst from rfl,
    merge_foldl_spec (JsValue.obj uf) (uf.map Prod.fst) cf k h]
  by_cases hNU :
      (objGet (.obj uf) k).isNull = true ∨ (objGet (.obj uf) k).isUndef = true
  · rw [if_pos hNU, if_neg (fun hc => hNU.elim (fun h1 => hc.2.1 h1)
      (fun h2 => hc.2.2 h2))]
  · rw [if_neg hNU]
    have hmem : k ∈ uf.map Prod.fst := by
      by_contra hnm
      exact hNU (Or.inr (by rw [objGet_eq_undef_of_not_mem uf k hnm]; rfl))
    rw [if_pos ⟨hmem, fun h1 => hNU (Or.inl h1), fun h2 => hNU (Or.inr h2)⟩]

/-- Witness instantiating the amended C1 at a concrete merge where the
extracted value is `null`: the filled title survives. -/
theorem claim_c1_witness :
    objGet
      (Recruiter.mergeVacancy (.obj [("title", .str "Dev")])
        (.obj [("title", .null)])) "title" =
      if (objGet (.obj [("title", JsValue.null)]) "title").isNull ∨
          (objGet (.obj [("title", JsValue.null)]) "title").isUndef then
        objGet (.obj [("title", JsValue.str "Dev")]) "title"
      else objGet (.obj [("title", JsValue.null)]) "title" :=
  claim_c1 [("title", .str "Dev")] [("title", .null)] (by decide) "title"

/-! ## Claim C2: completion gating -/

/-- Record for the C2 counterexample: every mandatory field carries a value
the spec counts as filled, with zero years of minimum experience. -/
def c2vac : JsValue :=
  .obj [("title", .str "Dev"), ("department", .str "IT"),
        ("domain", .str "Fintech"), ("coreSkills", .arr [.str "React"]),
        ("overallExperiencesFrom", .num 0)]

/-- Claim C2 as stated is false: with every mandatory field spec-filled
(the experience minimum being the explicit number `0`), `isVacancyComplete`
still answers `false`, because its emptiness test uses JS truthiness and
`!0` is true. -/
theorem claim_c2_counterexample :
    (Recruiter.requiredFields.all (fun f => specFilled (getPath c2vac f))) =
      true ∧
    Recruiter.isVacancyComplete c2vac = false :=
  ⟨rfl, rfl⟩

/-- Claim C2 (amended): `isComplete` is true iff each of the five mandatory
fields holds a value that is JS-truthy and not an empty array — so an
explicit `0` or `false` counts as UNfilled here — and the answer depends
only on the mandatory fields, never on optional-field fill state. -/
theorem claim_c2 :
    (∀ v : JsValue,
      Recruiter.isVacancyComplete v = true ↔
        ∀ f ∈ Recruiter.requiredFields,
          (getPath v f).truthy = true ∧ (getPath v f).isEmptyArray = false) ∧
    (∀ v w : JsValue,
      (∀ f ∈ Recruiter.requiredFields, getPath v f = getPath w f) →
      Recruiter.isVacancyComplete v = Recruiter.isVacancyComplete w) := by
  constructor
  · intro v
    simp [Recruiter.isVacancyComplete, List.all_eq_true, not_or,
      Bool.not_eq_true]
  · intro v w h
    simp only [Recruiter.isVacancyComplete, Recruiter.requiredFields,
      List.all_cons, List.all_nil]
    rw [h "title" (by decide), h "department" (by decide),
      h "domain" (by decide), h "coreSkills" (by decide),
      h "overallExperiencesFrom" (by decide)]

/-- Two records agreeing on mandatory fields but differing on the optional
description field. -/
def c2optA : JsValue := .obj [("description", .null)]

/-- Same as `c2optA` with the optional field filled. -/
def c2optB : JsValue := .obj [("description", .str "a role")]

/-- Witness instantiating amended C2: completion is unchanged by an
optional-field difference. -/
theorem claim_c2_witness :
    Recruiter.isVacancyComplete c2optA = Recruiter.isVacancyComplete c2optB :=
  claim_c2.2 c2optA c2optB (by intro f hf; fin_cases hf <;> rfl)

/-! ## Claim C6: skip default values -/

/-- Record for the C6 counterexample: the next missing field is the
mandatory array field `coreSkills`. -/
def c6vac : JsValue :=
  .obj [("title", .str "Dev"), ("department", .str "IT"),
        ("domain", .str "Fintech"), ("coreSkills", .arr [])]

/-- Claim C6 as stated is false: with `coreSkills` pending, a detected skip
substitutes the empty string, not an empty sequence; likewise the numeric
field `overallExperiencesFrom` receives the empty string, not `null`. -/
theorem claim_c6_counterexample :
    Recruiter.getNextMissingField c6vac = some "coreSkills" ∧
    Recruiter.skipDefaultValue (some "coreSkills") = .str "" ∧
    (Recruiter.skipDefaultValue (some "coreSkills") = .arr [] → False) ∧
    Recruiter.skipDefaultValue (some "overallExperiencesFrom") = .str "" ∧
    (Recruiter.skipDefaultValue (some "overallExperiencesFrom") = .null →
      False) := by
  refine ⟨rfl, rfl, fun h => ?_, rfl, fun h => ?_⟩
  · exact JsValue.noConfusion (show JsValue.str "" = JsValue.arr [] from h)
  · exact JsValue.noConfusion (show JsValue.str "" = JsValue.null from h)

/-- Claim C6 (amended): the skip default is keyed on the field name, not
the field kind — `education`, `isTestsTask` and `remote` get `false`;
`secondarySkills` and `languages` get an empty sequence; the
`salaryExpectations` paths and `overallExperiencesTo` get `null`; every
other pending field, including the array field `coreSkills`, the numeric
field `overallExperiencesFrom`, and all string fields, gets the empty
string. -/
theorem claim_c6 :
    Recruiter.skipDefaultValue (some "education") = .bool false ∧
    Recruiter.skipDefaultValue (some "isTestsTask") = .bool false ∧
    Recruiter.skipDefaultValue (some "remote") = .bool false ∧
    Recruiter.skipDefaultValue (some "secondarySkills") = .arr [] ∧
    Recruiter.skipDefaultValue (some "languages") = .arr [] ∧
    Recruiter.skipDefaultValue (some "salaryExpectations.min") = .null ∧
    Recruiter.skipDefaultValue (some "salaryExpectations.max") = .null ∧
    Recruiter.skipDefaultValue (some "overallExperiencesTo") = .null ∧
    Recruiter.skipDefaultValue (some "title") = .str "" ∧
    Recruiter.skipDefaultValue (some "department") = .str "" ∧
    Recruiter.skipDefaultValue (some "domain") = .str "" ∧
    Recruiter.skipDefaultValue (some "coreSkills") = .str "" ∧
    Recruiter.skipDefaultValue (some "overallExperiencesFrom") = .str "" ∧
    Recruiter.skipDefaultValue (some "locationType") = .str "" ∧
    Recruiter.skipDefaultValue (some "employmentType") = .str "" ∧
    Recruiter.skipDefaultValue (some "companyType") = .str "" ∧
    Recruiter.skipDefaultValue (some "description") = .str "" ∧
    Recruiter.skipDefaultValue none = .str "" :=
  ⟨rfl, rfl, rfl, rfl, rfl, rfl, rfl, rfl, rfl, rfl, rfl, rfl, rfl, rfl, rfl,
   rfl, rfl, rfl⟩

/-! ## Claim C8: webhook failure is non-fatal -/

/-- Claim C8 (confirmed): when the webhook sink throws on a completed turn,
the assembled response still reports `isComplete = true`, carries the
generated document both as the `jobDescription` field and inside the final
message, and surfaces the sink failure only as `webhookSuccess = false`;
the completion step is a total function, so no error is rethrown. -/
theorem claim_c8 :
    ∀ (aiMessage : String) (vacancy : JsValue) (jobDescription err : String),
      (Recruiter.completeTurnStep aiMessage vacancy jobDescription
        (.error err)).webhookSuccess = false ∧
      (Recruiter.completeTurnStep aiMessage vacancy jobDescription
        (.error err)).isComplete = true ∧
      (Recruiter.completeTurnStep aiMessage vacancy jobDescription
        (.error err)).jobDescription = jobDescription ∧
      (Recruiter.completeTurnStep aiMessage vacancy jobDescription
        (.error err)).message =
        aiMessage ++ "\n\n**Generated Job Description:**\n\n" ++
          jobDescription ++
          "\n\n⚠️ **Position created locally but failed to sync with main system.**" :=
  fun _ _ _ _ => ⟨rfl, rfl, rfl, rfl⟩

/-! ## Claim C4: CLARIFICATION_NEEDED handling -/

/-- Extraction result for the C4 counterexample: the capability parsed
fine, asked for clarification, and shipped a modified record. -/
def c4extr : VacancyBuilder.Extraction :=
  ⟨"CLARIFICATION_NEEDED", .obj [("title", .str "Changed")],
   "Which department?"⟩

/-- Claim C4 as stated is false on one point: the chat route stores
`extractionResult.updatedVacancy` into the session before checking the
status, so a parsed CLARIFICATION_NEEDED result replaces the record (here:
a title the template held as `null` becomes "Changed").  The commentary
does become the reply and the turn does end early. -/
theorem claim_c4_counterexample :
    (VacancyBuilder.chatMessageStep c4extr).vacancy = c4extr.updatedVacancy ∧
    getPath (VacancyBuilder.chatMessageStep c4extr).vacancy "title" =
      .str "Changed" ∧
    getPath VacancyBuilder.vacancyTemplate "title" = .null ∧
    (VacancyBuilder.chatMessageStep c4extr).earlyReply =
      some "Which department?" :=
  ⟨rfl, rfl, rfl, rfl⟩

/-- Claim C4 (amended): on CLARIFICATION_NEEDED the session record is set
to the extraction result's `updatedVacancy` — it stays unchanged exactly
when the extractor echoes the current record back, which the parse-failure
fallback always does — the commentary (or the generic rephrase request)
becomes the reply, and the turn ends without reaching the next-field
selector; on any other status the turn continues into the selector. -/
theorem claim_c4 :
    (∀ e : VacancyBuilder.Extraction, e.status = "CLARIFICATION_NEEDED" →
      VacancyBuilder.chatMessageStep e = ⟨e.updatedVacancy, some e.commentary⟩) ∧
    (∀ v : JsValue,
      VacancyBuilder.extractAndUpdateFields none v =
        ⟨"CLARIFICATION_NEEDED", v, "Could you please rephrase that?"⟩ ∧
      VacancyBuilder.chatMessageStep (VacancyBuilder.extractAndUpdateFields none v) =
        ⟨v, some "Could you please rephrase that?"⟩) ∧
    (∀ e : VacancyBuilder.Extraction, e.status ≠ "CLARIFICATION_NEEDED" →
      VacancyBuilder.chatMessageStep e = ⟨e.updatedVacancy, none⟩) := by
  refine ⟨fun e h => ?_, fun v => ⟨rfl, rfl⟩, fun e h => ?_⟩
  · simp [VacancyBuilder.chatMessageStep, h]
  · simp [VacancyBuilder.chatMessageStep, h]

/-- A successful extraction used to instantiate amended C4. -/
def c4success : VacancyBuilder.Extraction :=
  ⟨"SUCCESS", .obj [("title", .str "Dev")], "Noted."⟩

/-- Witness instantiating amended C4 at a SUCCESS result: the turn
continues into the selector. -/
theorem claim_c4_witness :
    VacancyBuilder.chatMessageStep c4success =
      ⟨c4success.updatedVacancy, none⟩ :=
  claim_c4.2.2 c4success (by decide)

/-! ## Claim C3: the next-field selector's unfilled test -/

/-- Record for the C3 counterexample: the title is a whitespace-only
string, every other field of the `VacancyBuilder` schema is filled. -/
def c3vac : JsValue :=
  .obj [("title", .str " "),
        ("department", .str "IT"),
        ("location", .obj [("type", .str "remote"), ("city", .str "Kyiv")]),
        ("domain", .str "Fintech"),
        ("salary", .obj [("from", .num 1000), ("to", .num 2000)]),
        ("experience", .obj [("min", .num 1), ("max", .num 3)]),
        ("responsibilities", .arr [.str "build"]),
        ("skills", .arr [.str "React"]),
        ("secondary_skills", .arr [.str "Node"]),
        ("soft_skills", .arr [.str "teamwork"]),
        ("benefits", .arr [.str "insurance"]),
        ("is_remote", .bool true)]

/-- Claim C3 as stated is false: a whitespace-only string is unfilled per
the claim, yet `findNextFieldToFill` declares the record complete (returns
null), because its test compares against the empty string exactly and
never trims. -/
theorem claim_c3_counterexample :
    claimUnfilledC3 (getPath c3vac "title") = true ∧
    VacancyBuilder.findNextFieldToFill c3vac none = none :=
  ⟨rfl, rfl⟩

/-- Rotation helper for claim C3: once the rotated search order is exposed
as a cons cell whose head satisfies the unfilled test, the selector
returns that head. -/
theorem findRotAux {v : JsValue} {target last : String} {rest : List String}
    (e : VacancyBuilder.findNextFieldToFill v (some last) =
      List.find? (fun name => VacancyBuilder.isUnfilledVB (getPath v name))
        (target :: rest))
    (h : VacancyBuilder.isUnfilledVB (getPath v target) = true) :
    VacancyBuilder.findNextFieldToFill v (some last) = some target := by
  rw [e]
  exact List.find?_cons_of_pos _ h

/-- Claim C3 (amended): `findNextFieldToFill` scans the field list rotated
to start right after `lastAskedField` and returns the first field whose
value is strictly `null`, an array with zero elements, or the empty string
exactly — whitespace-only strings, `undefined`, and an explicit `false`
all count as filled, with no special boolean rule — and returns null when
no field is unfilled.  Part three states the rotation: when the field
right after `lastAskedField` (wrapping around) is unfilled, it is the one
returned. -/
theorem claim_c3 :
    (∀ (v : JsValue) (last : Option String),
      (VacancyBuilder.findNextFieldToFill v last = none ↔
        ∀ f ∈ VacancyBuilder.fieldNames,
          ¬ VacancyBuilder.isUnfilledVB (getPath v f) = true) ∧
      (∀ f, VacancyBuilder.findNextFieldToFill v last = some f →
        f ∈ VacancyBuilder.fieldNames ∧
          VacancyBuilder.isUnfilledVB (getPath v f) = true)) ∧
    (∀ (v : JsValue) (k : Nat), k < 15 →
      VacancyBuilder.isUnfilledVB
        (getPath v (VacancyBuilder.fieldNames.getD ((k + 1) % 15) "")) = true →
      VacancyBuilder.findNextFieldToFill v
          (some (VacancyBuilder.fieldNames.getD k "")) =
        some (VacancyBuilder.fieldNames.getD ((k + 1) % 15) "")) := by
  have hmem : ∀ (cut : Nat) (x : String),
      x ∈ List.drop cut VacancyBuilder.fieldNames ++
            List.take cut VacancyBuilder.fieldNames ↔
        x ∈ VacancyBuilder.fieldNames := by
    intro cut x
    rw [List.mem_append, or_comm, ← List.mem_append, List.take_append_drop]
  refine ⟨fun v last => ⟨?_, fun f hf => ?_⟩, fun v k hk h => ?_⟩
  · simp only [VacancyBuilder.findNextFieldToFill, List.find?_eq_none]
    constructor
    · intro h f hf
      exact h f ((hmem _ f).mpr hf)
    · intro h f hf
      exact h f ((hmem _ f).mp hf)
  · simp only [VacancyBuilder.findNextFieldToFill] at hf
    have hp := List.find?_some hf
    exact ⟨(hmem _ f).mp (List.mem_of_find?_eq_some hf), hp⟩
  · interval_cases k <;> exact findRotAux rfl h

/-- Witness instantiating amended C3 on the fresh template: the selector
returns the first field, which is indeed unfilled under the source's
test. -/
theorem claim_c3_witness :
    "title" ∈ VacancyBuilder.fieldNames ∧
      VacancyBuilder.isUnfilledVB
        (getPath VacancyBuilder.vacancyTemplate "title") = true :=
  (claim_c3.1 VacancyBuilder.vacancyTemplate none).2 "title" rfl

/-! ## Claim C9: ring coverage of the selector -/

/-- Iterated ring search: ask `findNextFieldToFill`, feed the returned
field back as the last-asked field, `n` times, collecting the visited
fields (stopping early if the selector ever signals completion). -/
def ringVisit (v : JsValue) : Nat → Option String → List String
  | 0, _ => []
  | n + 1, last =>
    match VacancyBuilder.findNextFieldToFill v last with
    | some f => f :: ringVisit v n (some f)
    | none => []

/-- Claim C9 (confirmed): starting from `lastAskedField = fields[k]` on the
all-unfilled template, fifteen successive selector calls (the field count)
visit fifteen pairwise distinct fields covering the whole schema — every
field exactly once before any could repeat. -/
theorem claim_c9 :
    ∀ k : Nat, k < 15 →
      ((ringVisit VacancyBuilder.vacancyTemplate 15
          (some (VacancyBuilder.fieldNames.getD k ""))).Nodup ∧
       (ringVisit VacancyBuilder.vacancyTemplate 15
          (some (VacancyBuilder.fieldNames.getD k ""))).length = 15 ∧
       ∀ f ∈ VacancyBuilder.fieldNames,
         f ∈ ringVisit VacancyBuilder.vacancyTemplate 15
           (some (VacancyBuilder.fieldNames.getD k ""))) := by
  decide

/-- Witness instantiating C9 at the first field. -/
theorem claim_c9_witness :
    (ringVisit VacancyBuilder.vacancyTemplate 15
        (some (VacancyBuilder.fieldNames.getD 0 ""))).Nodup ∧
    (ringVisit VacancyBuilder.vacancyTemplate 15
        (some (VacancyBuilder.fieldNames.getD 0 ""))).length = 15 ∧
    ∀ f ∈ VacancyBuilder.fieldNames,
      f ∈ ringVisit VacancyBuilder.vacancyTemplate 15
        (some (VacancyBuilder.fieldNames.getD 0 "")) :=
  claim_c9 0 (by decide)

/-! ## Claim C10: totality of getValueByPath -/

/-- The guarded `reduce` step of `getValueByPathE` returns `.ok` of the
pure step on every input: the truthiness guard short-circuits before the
only throwing reads (`null`/`undefined` bases). -/
theorem pathStepE_eq (acc : JsValue) (part : String) :
    (if acc.truthy then
        (jsMemberE acc part).map (fun v => if ¬ v.isUndef then v else .undef)
      else pure .undef) = Except.ok (ε := String) (pathStep acc part) := by
  by_cases h : acc.truthy = true
  · have hne : jsMemberE acc part = .ok (jsMember acc part) := by
      cases acc <;> simp_all [jsMemberE, JsValue.truthy]
    rw [if_pos h, hne]
    simp only [Except.map, pathStep, h]
    by_cases h2 : (jsMember acc part).isUndef = true <;> simp [h2]
  · rw [if_neg h]
    simp [pathStep, h, pure, Except.pure]

/-- The effectful walk of `getValueByPathE` never errors and computes the
pure walk. -/
theorem foldlME_eq (l : List String) :
    ∀ acc : JsValue,
      List.foldlM
        (fun acc part =>
          if acc.truthy then
            (jsMemberE acc part).map (fun v => if ¬ v.isUndef then v else .undef)
          else pure .undef)
        acc l = Except.ok (ε := String) (List.foldl pathStep acc l) := by
  induction l with
  | nil => intro acc; rfl
  | cons hd tl ih =>
    intro acc
    rw [List.foldlM_cons, pathStepE_eq acc hd]
    simpa using ih (pathStep acc hd)

/-- A value whose `isUndef` test holds is `undefined`. -/
theorem eq_undef_of_isUndef {v : JsValue} (h : v.isUndef = true) :
    v = .undef := by
  cases v <;> simp_all [JsValue.isUndef]

/-- Claim C10 (confirmed): `getValueByPath` is total — on every object and
every path value the effectful version returns `.ok`, never a thrown
`TypeError` — it returns `undefined` whenever the object is absent
(`null`/`undefined`), and whenever the guarded walk is `undefined` after
any prefix of the dot-split path (a segment missing along the way), the
final answer is `undefined`. -/
theorem claim_c10 :
    (∀ obj path : JsValue,
      getValueByPathE obj path = .ok (getValueByPath obj path)) ∧
    (∀ path : JsValue,
      getValueByPath .null path = .undef ∧
        getValueByPath .undef path = .undef) ∧
    (∀ (obj path : JsValue) (l1 l2 : List String),
      splitOnDot (jsToString path) = l1 ++ l2 →
      (l1.foldl pathStep obj).isUndef = true →
      getValueByPath obj path = .undef) := by
  refine ⟨fun obj path => ?_, fun path => ?_, fun obj path l1 l2 hsplit h => ?_⟩
  · by_cases hg : ¬ path.truthy = true ∨ ¬ obj.truthy = true
    · rw [getValueByPathE, getValueByPath, if_pos hg, if_pos hg]
    · rw [getValueByPathE, getValueByPath, if_neg hg, if_neg hg, foldlME_eq]
  · constructor <;> simp [getValueByPath, JsValue.truthy]
  · rw [getValueByPath]
    by_cases hg : ¬ path.truthy = true ∨ ¬ obj.truthy = true
    · rw [if_pos hg]
    · rw [if_neg hg, hsplit, List.foldl_append, eq_undef_of_isUndef h,
        foldl_pathStep_undef]

/-- Witness instantiating C10's missing-segment clause: walking `a.b.c`
dies at `b` on a record whose `a` is an empty object. -/
theorem claim_c10_witness :
    getValueByPath (.obj [("a", .obj [])]) (.str "a.b.c") = .undef :=
  claim_c10.2.2 (.obj [("a", .obj [])]) (.str "a.b.c") ["a", "b"] ["c"] rfl rfl

/-! ## Claim C7: guards of the heuristic auto-fill layer -/

namespace Recruiter

theorem objGet_smDepartment_ne (uv cv : JsValue) (g : String)
    (h : g ≠ "department") : objGet (smDepartment uv cv) g = objGet uv g := by
  simp only [smDepartment]
  split
  · exact objGet_objSet_ne _ _ _ _ h
  · rfl

theorem objGet_smSalary_ne (uv cv : JsValue) (sm : Option (Int × Option Int))
    (g : String) (h : g ≠ "salaryExpectations") :
    objGet (smSalary uv cv sm) g = objGet uv g := by
  cases sm with
  | none => rfl
  | some p =>
    obtain ⟨m1, m2⟩ := p
    simp only [smSalary]
    split
    · exact objGet_objSet_ne _ _ _ _ h
    · rfl

theorem objGet_smLocation_ne (uv : JsValue) (msg : String) (cv : JsValue)
    (g : String) (h1 : g ≠ "locationType") (h2 : g ≠ "remote") :
    objGet (smLocation uv msg cv) g = objGet uv g := by
  simp only [smLocation]
  split_ifs
  · rw [objGet_objSet_ne _ _ _ _ h2, objGet_objSet_ne _ _ _ _ h1]
  · exact objGet_objSet_ne _ _ _ _ h1
  · exact objGet_objSet_ne _ _ _ _ h1
  · rfl

theorem objGet_smEmployment_ne (uv : JsValue) (msg : String) (cv : JsValue)
    (g : String) (h : g ≠ "employmentType") :
    objGet (smEmployment uv msg cv) g = objGet uv g := by
  simp only [smEmployment]
  split_ifs
  · exact objGet_objSet_ne _ _ _ _ h
  · exact objGet_objSet_ne _ _ _ _ h
  · rfl

theorem objGet_smExperience_ne (uv cv : JsValue) (em : Option Int)
    (g : String) (h : g ≠ "overallExperiencesFrom") :
    objGet (smExperience uv cv em) g = objGet uv g := by
  cases em with
  | none => rfl
  | some e =>
    simp only [smExperience]
    split
    · exact objGet_objSet_ne _ _ _ _ h
    · rfl

theorem objGet_smSkills_ne (uv cv : JsValue) (st : String → Bool)
    (g : String) (h : g ≠ "coreSkills") :
    objGet (smSkills uv cv st) g = objGet uv g := by
  simp only [smSkills]
  split_ifs
  · exact objGet_objSet_ne _ _ _ _ h
  · rfl
  · rfl

theorem smDepartment_id (uv cv : JsValue)
    (h : (objGet cv "department").truthy = true) : smDepartment uv cv = uv := by
  simp [smDepartment, h]

theorem smSalary_id (uv cv : JsValue) (sm : Option (Int × Option Int))
    (h : (objGet (objGet cv "salaryExpectations") "min").truthy = true) :
    smSalary uv cv sm = uv := by
  cases sm with
  | none => rfl
  | some p =>
    obtain ⟨m1, m2⟩ := p
    simp [smSalary, h]

theorem smLocation_id (uv : JsValue) (msg : String) (cv : JsValue)
    (h1 : (objGet cv "locationType").truthy = true)
    (h2 : strIncludes msg "office" = false) : smLocation uv msg cv = uv := by
  simp [smLocation, h1, h2]

theorem smEmployment_id (uv : JsValue) (msg : String) (cv : JsValue)
    (h : (objGet cv "employmentType").truthy = true) :
    smEmployment uv msg cv = uv := by
  simp [smEmployment, h]

theorem smExperience_id (uv cv : JsValue) (em : Option Int)
    (h : (objGet cv "overallExperiencesFrom").truthy = true) :
    smExperience uv cv em = uv := by
  cases em with
  | none => rfl
  | some e => simp [smExperience, h]

theorem smSkills_id (uv cv : JsValue) (st : String → Bool)
    (h1 : (objGet cv "coreSkills").truthy = true)
    (h2 : jsLengthZero (objGet cv "coreSkills") = false) :
    smSkills uv cv st = uv := by
  simp [smSkills, h1, h2]

end Recruiter

/-- Current record for the first C7 counterexample: the location type is
already explicitly filled. -/
def c7cvA : JsValue := .obj [("locationType", .str "remote")]

/-- Same-turn AI output for the first C7 counterexample: nothing
extracted. -/
def c7uvA : JsValue := .obj []

/-- Current record for the second C7 counterexample: department still
unfilled. -/
def c7cvB : JsValue := .obj []

/-- Same-turn AI output for the second C7 counterexample: the AI extracted
both a developer title and an explicit department. -/
def c7uvB : JsValue :=
  .obj [("title", .str "Frontend developer"),
        ("department", .str "Engineering")]

/-- Claim C7 as stated is false twice over.  First, the message "office"
flips a filled locationType to on_site (the unparenthesised condition at
part_000 line 829 fires on the office keyword regardless of fill state),
and the merge then overrides the explicit value.  Second, the
developer-title heuristic overwrites the department the AI extracted in
the same turn, because its guard consults only the prior record.  The
regex oracles are `none`/`none`/false, matching what the source regexes
yield on these messages. -/
theorem claim_c7_counterexample :
    ((objGet c7cvA "locationType").truthy = true ∧
      objGet (Recruiter.applySmartMappings c7uvA "office" c7cvA none none
          (fun _ => false)) "locationType" = .str "on_site" ∧
      objGet
          (Recruiter.mergeVacancy c7cvA
            (Recruiter.applySmartMappings c7uvA "office" c7cvA none none
              (fun _ => false))) "locationType" = .str "on_site") ∧
    ((objGet c7cvB "department").truthy = false ∧
      objGet c7uvB "department" = .str "Engineering" ∧
      objGet
          (Recruiter.applySmartMappings c7uvB
            "Frontend developer, Engineering dept" c7cvB none none
            (fun _ => false)) "department" = .str "IT") :=
  ⟨⟨rfl, rfl, rfl⟩, ⟨rfl, rfl, rfl⟩⟩

/-- Claim C7 (amended): every heuristic checks the CURRENT record's fill
state (JS truthiness; for skills also non-emptiness) and leaves the
corresponding field of the update untouched when it is already filled —
for the location heuristics provided the message lacks the "office"
keyword, whose branch fires unguarded; and the department heuristic,
though guarded on the current record, can still override a same-turn
AI-extracted department (see the counterexample). -/
theorem claim_c7 :
    ∀ (uv cv : JsValue) (userMessage : String)
      (sm : Option (Int × Option Int)) (em : Option Int)
      (st : String → Bool),
      ((objGet cv "department").truthy = true →
        objGet (Recruiter.applySmartMappings uv userMessage cv sm em st)
            "department" = objGet uv "department") ∧
      ((objGet (objGet cv "salaryExpectations") "min").truthy = true →
        objGet (Recruiter.applySmartMappings uv userMessage cv sm em st)
            "salaryExpectations" = objGet uv "salaryExpectations") ∧
      ((objGet cv "locationType").truthy = true →
        strIncludes (toLowerJs userMessage) "office" = false →
        objGet (Recruiter.applySmartMappings uv userMessage cv sm em st)
            "locationType" = objGet uv "locationType") ∧
      ((objGet cv "employmentType").truthy = true →
        objGet (Recruiter.applySmartMappings uv userMessage cv sm em st)
            "employmentType" = objGet uv "employmentType") ∧
      ((objGet cv "overallExperiencesFrom").truthy = true →
        objGet (Recruiter.applySmartMappings uv userMessage cv sm em st)
            "overallExperiencesFrom" = objGet uv "overallExperiencesFrom") ∧
      ((objGet cv "coreSkills").truthy = true →
        Recruiter.jsLengthZero (objGet cv "coreSkills") = false →
        objGet (Recruiter.applySmartMappings uv userMessage cv sm em st)
            "coreSkills" = objGet uv "coreSkills") := by
  intro uv cv userMessage sm em st
  refine ⟨fun h => ?_, fun h => ?_, fun h1 h2 => ?_, fun h => ?_, fun h => ?_,
    fun h1 h2 => ?_⟩
  · simp only [Recruiter.applySmartMappings]
    rw [Recruiter.objGet_smSkills_ne _ _ _ _ (by decide),
      Recruiter.objGet_smExperience_ne _ _ _ _ (by decide),
      Recruiter.objGet_smEmployment_ne _ _ _ _ (by decide),
      Recruiter.objGet_smLocation_ne _ _ _ _ (by decide) (by decide),
      Recruiter.objGet_smSalary_ne _ _ _ _ (by decide),
      Recruiter.smDepartment_id _ _ h]
  · simp only [Recruiter.applySmartMappings]
    rw [Recruiter.objGet_smSkills_ne _ _ _ _ (by decide),
      Recruiter.objGet_smExperience_ne _ _ _ _ (by decide),
      Recruiter.objGet_smEmployment_ne _ _ _ _ (by decide),
      Recruiter.objGet_smLocation_ne _ _ _ _ (by decide) (by decide),
      Recruiter.smSalary_id _ _ _ h,
      Recruiter.objGet_smDepartment_ne _ _ _ (by decide)]
  · simp only [Recruiter.applySmartMappings]
    rw [Recruiter.objGet_smSkills_ne _ _ _ _ (by decide),
      Recruiter.objGet_smExperience_ne _ _ _ _ (by decide),
      Recruiter.objGet_smEmployment_ne _ _ _ _ (by decide),
      Recruiter.smLocation_id _ _ _ h1 h2,
      Recruiter.objGet_smSalary_ne _ _ _ _ (by decide),
      Recruiter.objGet_smDepartment_ne _ _ _ (by decide)]
  · simp only [Recruiter.applySmartMappings]
    rw [Recruiter.objGet_smSkills_ne _ _ _ _ (by decide),
      Recruiter.objGet_smExperience_ne _ _ _ _ (by decide),
      Recruiter.smEmployment_id _ _ _ h,
      Recruiter.objGet_smLocation_ne _ _ _ _ (by decide) (by decide),
      Recruiter.objGet_smSalary_ne _ _ _ _ (by decide),
      Recruiter.objGet_smDepartment_ne _ _ _ (by decide)]
  · simp only [Recruiter.applySmartMappings]
    rw [Recruiter.objGet_smSkills_ne _ _ _ _ (by decide),
      Recruiter.smExperience_id _ _ _ h,
      Recruiter.objGet_smEmployment_ne _ _ _ _ (by decide),
      Recruiter.objGet_smLocation_ne _ _ _ _ (by decide) (by decide),
      Recruiter.objGet_smSalary_ne _ _ _ _ (by decide),
      Recruiter.objGet_smDepartment_ne _ _ _ (by decide)]
  · simp only [Recruiter.applySmartMappings]
    rw [Recruiter.smSkills_id _ _ _ h1 h2,
      Recruiter.objGet_smExperience_ne _ _ _ _ (by decide),
      Recruiter.objGet_smEmployment_ne _ _ _ _ (by decide),
      Recruiter.objGet_smLocation_ne _ _ _ _ (by decide) (by decide),
      Recruiter.objGet_smSalary_ne _ _ _ _ (by decide),
      Recruiter.objGet_smDepartment_ne _ _ _ (by decide)]

/-- Current record used by the C7 witness: department already filled. -/
def c7wCv : JsValue := .obj [("department", .str "IT")]

/-- Witness instantiating amended C7: with the department filled, the
heuristic layer leaves it exactly as the AI update had it. -/
theorem claim_c7_witness :
    objGet (Recruiter.applySmartMappings (.obj []) "hello" c7wCv none none
        (fun _ => false)) "department" = objGet (.obj []) "department" :=
  (claim_c7 (.obj []) c7wCv "hello" none none (fun _ => false)).1 rfl

/-! ## Claim C5: skip decisions set exactly the target field -/

/-- Shape condition for C5: the record is an object and its
`salaryExpectations` member is itself an object or falsy — the shapes the
source ever constructs.  (A truthy non-object there would make the JS
nested write silently vanish.) -/
def icWellShaped (v : JsValue) : Bool :=
  match v with
  | .obj _ =>
    (match objGet v "salaryExpectations" with
     | .obj _ => true
     | x => !x.truthy)
  | _ => false

theorem getPath_objSet_self (vf : List (String × JsValue)) (f : String)
    (value : JsValue) (h1 : splitOnDot f = [f]) (h2 : f ≠ "") :
    getPath (objSet (.obj vf) f value) f = value := by
  rw [objSet_obj, getPath_obj_single _ _ h1 h2]
  simp [objGet_obj, assocGet_assocSet_self]

theorem getPath_objSet_ne_single (vf : List (String × JsValue)) (k : String)
    (value : JsValue) (g : String) (h1 : splitOnDot g = [g]) (h2 : g ≠ "")
    (h3 : g ≠ k) :
    getPath (objSet (.obj vf) k value) g = getPath (.obj vf) g := by
  rw [objSet_obj, getPath_obj_single _ _ h1 h2, getPath_obj_single _ _ h1 h2]
  simp [objGet_obj, assocGet_assocSet_ne _ _ _ _ h3]

theorem getPath_objSet2_ne_single (vf : List (String × JsValue)) (k : String)
    (x y : JsValue) (g : String) (h1 : splitOnDot g = [g]) (h2 : g ≠ "")
    (h3 : g ≠ k) :
    getPath (objSet (objSet (.obj vf) k x) k y) g = getPath (.obj vf) g := by
  rw [objSet_obj, objSet_obj, getPath_obj_single _ _ h1 h2,
    getPath_obj_single _ _ h1 h2]
  simp [objGet_obj, assocGet_assocSet_ne _ _ _ _ h3]

theorem getPath_objSet_ne_double (vf : List (String × JsValue)) (k : String)
    (value : JsValue) (h3 : ("salaryExpectations" : String) ≠ k) :
    getPath (objSet (.obj vf) k value) "salaryExpectations.min" =
      getPath (.obj vf) "salaryExpectations.min" := by
  rw [objSet_obj,
    getPath_obj_double _ "salaryExpectations.min" "salaryExpectations" "min"
      rfl (by decide),
    getPath_obj_double vf "salaryExpectations.min" "salaryExpectations" "min"
      rfl (by decide)]
  have h : objGet (.obj (assocSet vf k value)) "salaryExpectations" =
      objGet (.obj vf) "salaryExpectations" := by
    simp [objGet_obj, assocGet_assocSet_ne _ _ _ _ h3]
  rw [pathStep_obj, pathStep_obj, h]

/-- Reading `salaryExpectations.min` right after writing `min` under a
freshly stored `salaryExpectations` object yields the written value. -/
theorem getPath_salmin_generic (l ps : List (String × JsValue))
    (value : JsValue) :
    getPath
        (.obj (assocSet l "salaryExpectations"
          (.obj (assocSet ps "min" value)))) "salaryExpectations.min" =
      value := by
  rw [getPath_obj_double _ "salaryExpectations.min" "salaryExpectations" "min"
    rfl (by decide), pathStep_obj]
  have h1 : objGet
      (.obj (assocSet l "salaryExpectations" (.obj (assocSet ps "min" value))))
      "salaryExpectations" = .obj (assocSet ps "min" value) := by
    simp [objGet_obj, assocGet_assocSet_self]
  rw [h1, pathStep_obj]
  simp [objGet_obj, assocGet_assocSet_self]

theorem skipOthers_single (vf : List (String × JsValue)) (k : String)
    (value : JsValue) (hks : k ≠ "salaryExpectations") :
    ∀ g ∈ Recruiter.allFields, g ≠ k →
      getPath (objSet (.obj vf) k value) g = getPath (.obj vf) g := by
  intro g hg hne
  simp only [Recruiter.allFields] at hg
  fin_cases hg <;>
    first
      | exact getPath_objSet_ne_single _ _ _ _ rfl (by decide) hne
      | exact getPath_objSet_ne_double _ _ _ (Ne.symm hks)

theorem skipOthers_salParent (vf : List (String × JsValue)) (y : JsValue) :
    ∀ g ∈ Recruiter.allFields, g ≠ "salaryExpectations.min" →
      getPath (objSet (.obj vf) "salaryExpectations" y) g =
        getPath (.obj vf) g := by
  intro g hg hne
  simp only [Recruiter.allFields] at hg
  fin_cases hg <;>
    first
      | exact absurd rfl hne
      | exact getPath_objSet_ne_single _ _ _ _ rfl (by decide) (by decide)

theorem skipOthers_salParent2 (vf : List (String × JsValue)) (x y : JsValue) :
    ∀ g ∈ Recruiter.allFields, g ≠ "salaryExpectations.min" →
      getPath
          (objSet (objSet (.obj vf) "salaryExpectations" x)
            "salaryExpectations" y) g =
        getPath (.obj vf) g := by
  intro g hg hne
  simp only [Recruiter.allFields] at hg
  fin_cases hg <;>
    first
      | exact absurd rfl hne
      | exact getPath_objSet2_ne_single _ _ _ _ _ rfl (by decide) (by decide)

/-- `applySkip` on a dot-free pending field is a plain top-level write. -/
theorem applySkip_single (v : JsValue) (nf : String) (value : JsValue)
    (h1 : Recruiter.getNextMissingField v = some nf)
    (h2 : strIncludes nf "." = false) :
    Recruiter.applySkip v value = objSet v nf value := by
  simp [Recruiter.applySkip, h1, h2]

/-- `applySkip` on the pending field `salaryExpectations.min`: write into
the existing truthy parent, or install a fresh empty parent first. -/
theorem applySkip_salmin (vf : List (String × JsValue)) (value : JsValue)
    (h : Recruiter.getNextMissingField (.obj vf) =
      some "salaryExpectations.min") :
    Recruiter.applySkip (.obj vf) value =
      if (objGet (.obj vf) "salaryExpectations").truthy then
        objSet (.obj vf) "salaryExpectations"
          (objSet (objGet (.obj vf) "salaryExpectations") "min" value)
      else
        objSet (objSet (.obj vf) "salaryExpectations" (.obj []))
          "salaryExpectations" (objSet (.obj []) "min" value) := by
  simp only [Recruiter.applySkip, h,
    show strIncludes "salaryExpectations.min" "." = true from rfl,
    show splitOnDot "salaryExpectations.min" = ["salaryExpectations", "min"]
      from rfl, if_true]
  by_cases hp : (objGet (.obj vf) "salaryExpectations").truthy = true
  · simp [hp]
  · simp [hp, objGet_objSet_self]

/-- Claim C5 (confirmed): when the skip classifier fires with a pending
field `f`, the analysis sets exactly `f` (dot paths into the nested salary
group included) to the type-directed default, leaves every other schema
field at its current value, and never consults the extraction result —
the analysis output is identical for every extraction outcome, regex
match, and message. -/
theorem claim_c5 :
    ∀ (ai : Option String) (v : JsValue) (f : String),
      icWellShaped v = true →
      (Recruiter.checkForSkipResponse ai v).shouldSkip = true →
      (Recruiter.checkForSkipResponse ai v).field = some f →
      (∀ (e : Recruiter.ExtractOutcome) (sm : Option (Int × Option Int))
          (em : Option Int) (st : String → Bool) (m : String),
        (Recruiter.analyzeMessage ai e sm em st m v).success = true ∧
        getPath (Recruiter.analyzeMessage ai e sm em st m v).updatedVacancy
            f = (Recruiter.checkForSkipResponse ai v).value ∧
        (∀ g ∈ Recruiter.allFields, g ≠ f →
          getPath (Recruiter.analyzeMessage ai e sm em st m v).updatedVacancy
              g = getPath v g)) ∧
      (∀ (e₁ e₂ : Recruiter.ExtractOutcome) sm₁ sm₂ em₁ em₂
          (st₁ st₂ : String → Bool) (m₁ m₂ : String),
        Recruiter.analyzeMessage ai e₁ sm₁ em₁ st₁ m₁ v =
          Recruiter.analyzeMessage ai e₂ sm₂ em₂ st₂ m₂ v) := by
  intro ai v f hshape hskip hfield
  obtain ⟨vf, rfl⟩ : ∃ vf, v = .obj vf := by
    cases v <;> first | exact ⟨_, rfl⟩ | simp [icWellShaped] at hshape
  cases ai with
  | none => simp [Recruiter.checkForSkipResponse] at hskip
  | some resp =>
    by_cases hb : strIncludes (trimJs (toLowerJs resp)) "skip" = true
    case neg => simp [Recruiter.checkForSkipResponse, hb] at hskip
    case pos =>
      have hnf : Recruiter.getNextMissingField (.obj vf) = some f := by
        simpa [Recruiter.checkForSkipResponse, hb] using hfield
      have hAM : ∀ (e : Recruiter.ExtractOutcome) sm em (st : String → Bool)
          (m : String),
          Recruiter.analyzeMessage (some resp) e sm em st m (.obj vf) =
            ⟨true,
             Recruiter.applySkip (.obj vf)
               ((Recruiter.checkForSkipResponse (some resp) (.obj vf)).value),
             none⟩ := by
        intro e sm em st m
        simp only [Recruiter.analyzeMessage]
        rw [if_pos hskip]
      have hAMu : ∀ (e : Recruiter.ExtractOutcome) sm em (st : String → Bool)
          (m : String),
          (Recruiter.analyzeMessage (some resp) e sm em st m
            (.obj vf)).updatedVacancy =
            Recruiter.applySkip (.obj vf)
              ((Recruiter.checkForSkipResponse (some resp) (.obj vf)).value) := by
        intro e sm em st m
        rw [hAM]
      refine ⟨fun e sm em st m => ⟨by rw [hAM], ?_⟩,
        fun e₁ e₂ sm₁ sm₂ em₁ em₂ st₁ st₂ m₁ m₂ => by rw [hAM, hAM]⟩
      rw [hAMu]
      have hfmem : f ∈ Recruiter.allFields :=
        List.mem_of_find?_eq_some
          (show List.find? _ Recruiter.allFields = some f from hnf)
      simp only [Recruiter.allFields] at hfmem
      fin_cases hfmem
      all_goals
        try
          (rw [applySkip_single _ _ _ hnf rfl]
           exact ⟨getPath_objSet_self _ _ _ rfl (by decide),
             skipOthers_single _ _ _ (by decide)⟩)
      -- the remaining goal is the dotted field salaryExpectations.min
      rw [applySkip_salmin _ _ hnf]
      by_cases hp : (objGet (.obj vf) "salaryExpectations").truthy = true
      · obtain ⟨ps, hps⟩ :
            ∃ ps, objGet (.obj vf) "salaryExpectations" = .obj ps := by
          rcases hoc : objGet (.obj vf) "salaryExpectations" with
            _ | _ | b | n | _ | s | xs | ps
          case obj => exact ⟨ps, rfl⟩
          all_goals
            simp only [icWellShaped] at hshape
            rw [hoc] at hshape hp
            simp_all [JsValue.truthy]
        rw [if_pos hp, hps]
        refine ⟨?_, ?_⟩
        · rw [objSet_obj, objSet_obj]
          exact getPath_salmin_generic vf ps _
        · exact skipOthers_salParent vf _
      · rw [if_neg hp]
        refine ⟨?_, ?_⟩
        · exact
            getPath_salmin_generic (assocSet vf "salaryExpectations" (.obj []))
              [] _
        · exact skipOthers_salParent2 vf _ _

/-- Witness instantiating C5: on the fresh template a "skip" reply targets
the pending title field and the analysis writes the default there, for an
arbitrary (here: thrown) extraction outcome. -/
theorem claim_c5_witness :
    getPath
        (Recruiter.analyzeMessage (some "skip") .threw none none
          (fun _ => false) "skip" Recruiter.vacancyTemplate).updatedVacancy
        "title" =
      (Recruiter.checkForSkipResponse (some "skip")
        Recruiter.vacancyTemplate).value :=
  ((claim_c5 (some "skip") Recruiter.vacancyTemplate "title" rfl rfl rfl).1
    .threw none none (fun _ => false) "skip").2.1

end AiRecruit
